import Mathlib

/-
Verification development for jMouse (src/sourceCode.py).

Shallow embedding of the motion-trail engine: the mouse event handler state
(trail points, clicks, current offset, last-movement time), the per-frame
operations of MouseTrackerUI.update_canvas (auto-recenter, bounds recenter,
pruning), and the rendering functions (_draw_line_segment, _draw_clicks) as
pure functions producing draw-primitive descriptions.  Python floats are
modelled as rationals; the canvas and image loader are external collaborators
modelled at their interface boundary (primitive descriptions, an opaque
image-load outcome).
-/

/-- Boolean test that the first character list is an initial segment of the
second; helper for the substring test below. -/
def charPrefixB : List Char → List Char → Bool
  | [], _ => true
  | _ :: _, [] => false
  | a :: as, b :: bs => a == b && charPrefixB as bs

/-- Boolean test that `sub` occurs contiguously inside the second list. -/
def charInfixB (sub : List Char) : List Char → Bool
  | [] => charPrefixB sub []
  | b :: bs => charPrefixB sub (b :: bs) || charInfixB sub bs

/-- Python's `sub in s` substring test on strings, used by
`_draw_line_segment` for the checks on `line_style`. -/
def strContains (sub s : String) : Bool := charInfixB sub.toList s.toList

/-- Helper for `buttonName`: split a character list on the dot character,
accumulator-style, mirroring Python's `str.split(".")`. -/
def splitOnDotAux : List Char → List Char → List (List Char)
  | acc, [] => [acc.reverse]
  | acc, c :: cs =>
    if c == '.' then acc.reverse :: splitOnDotAux [] cs
    else splitOnDotAux (c :: acc) cs

/-- Python's `str(button).split('.')[-1]` from `MouseEventHandler.on_click`:
the last dot-separated component of the button's string form
(e.g. "Button.left" becomes "left"). -/
def buttonName (button : String) : String :=
  ⟨(splitOnDotAux [] button.toList).getLastD []⟩

/-- A trail point `(x, y, timestamp)` as appended by
`MouseEventHandler.on_delta_move`. -/
structure Point where
  x : ℚ
  y : ℚ
  t : ℚ
deriving DecidableEq, Repr

/-- An entry of `MouseEventHandler.points`: a trail point, or `none` — the
`None` sentinel the code appends as a break marker on recenter. -/
abbrev TrailEntry := Option Point

/-- A click record `(rel_x, rel_y, button, timestamp, pressed)` as appended by
`MouseEventHandler.on_click`. -/
structure Click where
  relx : ℚ
  rely : ℚ
  button : String
  t : ℚ
  pressed : Bool
deriving DecidableEq, Repr

/-- The mutable state of `MouseEventHandler`: the trail buffer, the click
list, the current offset from the canvas center, and the last-movement time. -/
structure HandlerState where
  points : List TrailEntry
  clicks : List Click
  currentPos : ℚ × ℚ
  lastMovementTime : ℚ
deriving DecidableEq, Repr

/-- `MouseEventHandler.__init__`: empty buffers, offset `(0,0)`, and the
current time as the last-movement time. -/
def initialState (now : ℚ) : HandlerState :=
  { points := [], clicks := [], currentPos := (0, 0), lastMovementTime := now }

/-- `MouseEventHandler.on_delta_move(dx, dy)`: scale the delta by
`coordinate_multiplier`, add it to the current offset, and append a Point at
the updated offset with the current time. -/
def on_delta_move (multiplier : ℚ) (st : HandlerState) (dx dy : ℚ) (now : ℚ) :
    HandlerState :=
  let newX := st.currentPos.1 + dx * multiplier
  let newY := st.currentPos.2 + dy * multiplier
  { st with
    lastMovementTime := now
    currentPos := (newX, newY)
    points := st.points ++ [some ⟨newX, newY, now⟩] }

/-- `MouseEventHandler.on_click(x, y, button, pressed)`: record the click at
the current offset (the `x`, `y` arguments are never read), with the last
dot-separated component of the button's string form. -/
def on_click (st : HandlerState) (x y : ℤ) (button : String) (pressed : Bool)
    (now : ℚ) : HandlerState :=
  { st with
    lastMovementTime := now
    clicks := st.clicks ++
      [⟨st.currentPos.1, st.currentPos.2, buttonName button, now, pressed⟩] }

/-- The auto-recenter check at the top of `update_canvas`: if enabled and the
inactivity timeout is exceeded, reset the offset to `(0,0)`, append a break
sentinel, and reset the activity timer. -/
def autoRecenter (enabled : Bool) (timeout now : ℚ) (st : HandlerState) :
    HandlerState :=
  if enabled = true ∧ now - st.lastMovementTime > timeout then
    { st with
      currentPos := (0, 0)
      points := st.points ++ [none]
      lastMovementTime := now }
  else st

/-- The bounds check of `update_canvas`: if the offset leaves the canvas
half-extents, reset it to `(0,0)` and append a break sentinel. -/
def boundsRecenter (W H : ℚ) (st : HandlerState) : HandlerState :=
  if |st.currentPos.1| > W / 2 ∨ |st.currentPos.2| > H / 2 then
    { st with
      currentPos := (0, 0)
      points := st.points ++ [none] }
  else st

/-- The per-frame point filter of `update_canvas`: keep an entry when it is
the break sentinel or its age is at most the lifespan. -/
def prunePoints (now lifespan : ℚ) (points : List TrailEntry) :
    List TrailEntry :=
  points.filter (fun p =>
    match p with
    | none => true
    | some q => decide (now - q.t ≤ lifespan))

/-- The per-frame click filter of `update_canvas`: keep a click when its age
is at most the lifespan. -/
def pruneClicks (now lifespan : ℚ) (clicks : List Click) : List Click :=
  clicks.filter (fun c => decide (now - c.t ≤ lifespan))

/-- Both per-frame filters applied to the handler state (the two assignment
lines of `update_canvas`); the offset and timer are not touched. -/
def framePrune (now lifespan : ℚ) (st : HandlerState) : HandlerState :=
  { st with
    points := prunePoints now lifespan st.points
    clicks := pruneClicks now lifespan st.clicks }

/-- A draw-primitive description, the interface boundary to the tkinter
canvas: the code emits polylines (`create_line`, with its smooth flag),
ovals (`create_oval`) and images (`create_image`); `filledPolygon`
(`create_polygon`) is part of the canvas interface but is checked below to
never be emitted by the trail renderer. -/
inductive Primitive where
  | polyline (pts : List (ℚ × ℚ)) (color : String) (width : ℚ) (smooth : Bool)
  | filledPolygon (pts : List (ℚ × ℚ)) (color : String)
  | oval (x1 y1 x2 y2 : ℚ) (fill outline : String)
  | image (x y : ℚ) (img : String)
deriving DecidableEq, Repr, Inhabited

/-- The stroke width recorded in a polyline primitive (`0` for the other
primitive kinds, which carry no width). -/
def primWidth : Primitive → ℚ
  | .polyline _ _ w _ => w
  | _ => 0

/-- Whether a primitive is a filled polygon. -/
def isFilledPolygonB : Primitive → Bool
  | .filledPolygon _ _ => true
  | _ => false

/-- The sub-segment interpolation of `_draw_line_segment` with
`num_steps = 10`: the 11 points `p1 + (p2 - p1) * (i / 10)` for
`i = 0, …, 10`. -/
def interpPoints (p1 p2 : ℚ × ℚ) : List (ℚ × ℚ) :=
  (List.range (10 + 1)).map (fun i : ℕ =>
    (p1.1 + (p2.1 - p1.1) * ((i : ℚ) / 10),
     p1.2 + (p2.2 - p1.2) * ((i : ℚ) / 10)))

/-- `MouseTrackerUI._draw_line_segment`: fade the configured width by
`max 0 (1 - age / lifespan)` when the style name contains "fade", then emit a
smoothed 11-point interpolated polyline when the style contains "smooth" or
is "original", a straight two-point polyline when it contains "jagged", and
nothing otherwise. -/
def draw_line_segment (lineStyle lineColor : String) (lineWidth : ℚ)
    (p1 p2 : ℚ × ℚ) (now lifespan : ℚ) (pointT : ℚ) : List Primitive :=
  let width :=
    if strContains "fade" lineStyle then
      lineWidth * max 0 (1 - (now - pointT) / lifespan)
    else lineWidth
  if strContains "smooth" lineStyle = true ∨ lineStyle = "original" then
    [Primitive.polyline (interpPoints p1 p2) lineColor width true]
  else if strContains "jagged" lineStyle then
    [Primitive.polyline [p1, p2] lineColor width false]
  else []

/-- The segment loop of `update_canvas`: walk consecutive entry pairs and,
when both are points, draw the segment between their canvas coordinates,
passing the first point's timestamp as the fade reference. -/
def drawTrail (lineStyle lineColor : String) (lineWidth cx cy now lifespan : ℚ) :
    List TrailEntry → List Primitive
  | [] => []
  | [_] => []
  | e1 :: e2 :: rest =>
    (match e1, e2 with
     | some q1, some q2 =>
       draw_line_segment lineStyle lineColor lineWidth
         (cx + q1.x, cy + q1.y) (cx + q2.x, cy + q2.y) now lifespan q1.t
     | _, _ => []) ++
    drawTrail lineStyle lineColor lineWidth cx cy now lifespan (e2 :: rest)

/-- A configured click shape: fill color and radius for one of the four
button/phase categories. -/
structure ClickStyle where
  color : String
  radius : ℚ
deriving DecidableEq, Repr

/-- The four loaded click glyphs of `MouseTrackerUI` (`none` when
unavailable), one per button/phase category. -/
structure ClickImages where
  leftPress : Option String
  leftRelease : Option String
  rightPress : Option String
  rightRelease : Option String
deriving DecidableEq, Repr

/-- `MouseTrackerUI._load_and_resize_image`: `none` when the path is unset or
does not exist; otherwise the outcome of the external load (`none` on a load
failure, which the code catches).  The filesystem and loader are passed in as
interface parameters; scaling only transforms a successfully loaded image and
is not observable in the primitive model. -/
def load_and_resize_image (pathExists : String → Bool)
    (loadImage : String → Option String) (path : String) : Option String :=
  if path ≠ "" ∧ pathExists path = true then loadImage path else none

/-- `MouseTrackerUI._update_images` restricted to the click glyphs: when
`click_images_enabled`, load each configured path; otherwise all four are
`none`. -/
def update_images (clickImagesEnabled : Bool) (pathExists : String → Bool)
    (loadImage : String → Option String)
    (leftPath leftReleasePath rightPath rightReleasePath : String) :
    ClickImages :=
  if clickImagesEnabled then
    { leftPress := load_and_resize_image pathExists loadImage leftPath
      leftRelease := load_and_resize_image pathExists loadImage leftReleasePath
      rightPress := load_and_resize_image pathExists loadImage rightPath
      rightRelease := load_and_resize_image pathExists loadImage rightReleasePath }
  else ⟨none, none, none, none⟩

/-- The fallback oval of `_draw_clicks` for one click and one configured
shape: a circle of the configured radius centered on the click's canvas
position, filled and outlined with the configured color. -/
def clickOval (cx cy : ℚ) (c : Click) (s : ClickStyle) : Primitive :=
  Primitive.oval (cx + c.relx - s.radius) (cy + c.rely - s.radius)
    (cx + c.relx + s.radius) (cy + c.rely + s.radius) s.color s.color

/-- The body of the loop in `MouseTrackerUI._draw_clicks` for a single click:
dispatch on `button == "left"` and `pressed`; use the category's glyph when
loaded, otherwise the category's configured color and radius. -/
def drawOneClick (cx cy : ℚ) (imgs : ClickImages)
    (ls lr rs rr : ClickStyle) (c : Click) : Primitive :=
  if c.button = "left" then
    if c.pressed = true then
      match imgs.leftPress with
      | some g => Primitive.image (cx + c.relx) (cy + c.rely) g
      | none => clickOval cx cy c ls
    else
      match imgs.leftRelease with
      | some g => Primitive.image (cx + c.relx) (cy + c.rely) g
      | none => clickOval cx cy c lr
  else
    if c.pressed = true then
      match imgs.rightPress with
      | some g => Primitive.image (cx + c.relx) (cy + c.rely) g
      | none => clickOval cx cy c rs
    else
      match imgs.rightRelease with
      | some g => Primitive.image (cx + c.relx) (cy + c.rely) g
      | none => clickOval cx cy c rr

/-- `MouseTrackerUI._draw_clicks`: one primitive per recorded click, in
order. -/
def draw_clicks (cx cy : ℚ) (imgs : ClickImages) (ls lr rs rr : ClickStyle)
    (clicks : List Click) : List Primitive :=
  clicks.map (drawOneClick cx cy imgs ls lr rs rr)

/-- The position the spec's accumulator invariant predicts from a buffer read
back to front: the last point's position, or `(0,0)` when the entry nearest
the end is a break sentinel or the buffer is empty.  Stated from the spec's
invariant wording, for comparison with the code's behavior. -/
def accumTargetRev : List TrailEntry → ℚ × ℚ
  | [] => (0, 0)
  | none :: _ => (0, 0)
  | some p :: _ => (p.x, p.y)

/-- The spec's predicted offset for a buffer in its stored order. -/
def accumTarget (points : List TrailEntry) : ℚ × ℚ :=
  accumTargetRev points.reverse

/-- Evaluation of `draw_line_segment` at the style "smooth_fade": a single
smoothed interpolated polyline whose width is the faded configured width. -/
theorem draw_line_segment_smooth_fade (lineColor : String) (w : ℚ)
    (p1 p2 : ℚ × ℚ) (now lifespan t : ℚ) :
    draw_line_segment "smooth_fade" lineColor w p1 p2 now lifespan t =
      [Primitive.polyline (interpPoints p1 p2) lineColor
        (w * max 0 (1 - (now - t) / lifespan)) true] := rfl

/-- Evaluation of `draw_line_segment` at the style "jagged_fade": a single
straight two-point polyline whose width is the faded configured width. -/
theorem draw_line_segment_jagged_fade (lineColor : String) (w : ℚ)
    (p1 p2 : ℚ × ℚ) (now lifespan t : ℚ) :
    draw_line_segment "jagged_fade" lineColor w p1 p2 now lifespan t =
      [Primitive.polyline [p1, p2] lineColor
        (w * max 0 (1 - (now - t) / lifespan)) false] := rfl

/-- Interpolating a segment with coincident endpoints yields eleven copies of
that point. -/
theorem interpPoints_same (p : ℚ × ℚ) :
    interpPoints p p = List.replicate 11 p := by
  have h : (fun i : ℕ =>
      ((p.1 + (p.1 - p.1) * ((i : ℚ) / 10), p.2 + (p.2 - p.2) * ((i : ℚ) / 10)) : ℚ × ℚ))
      = Function.const ℕ p := by
    funext i
    simp
  rw [interpPoints, h, List.map_const, List.length_range]

/-- The spec's predicted offset after appending a point is that point's
position. -/
theorem accumTarget_append_point (l : List TrailEntry) (p : Point) :
    accumTarget (l ++ [some p]) = (p.x, p.y) := by
  simp [accumTarget, accumTargetRev, List.reverse_append]

/-- The spec's predicted offset after appending a break sentinel is `(0,0)`. -/
theorem accumTarget_append_break (l : List TrailEntry) :
    accumTarget (l ++ [none]) = (0, 0) := by
  simp [accumTarget, accumTargetRev, List.reverse_append]

/-- C6: the per-frame prune removes exactly the points older than the
lifespan and exactly the clicks older than the lifespan, keeps survivors in
their relative order (the result is a sublist), and on the spec's scenario
with lifespan 1 removes the point of age 3/2 while keeping the point of
age 1/2. -/
theorem prune_removes_exactly_expired (now lifespan : ℚ)
    (points : List TrailEntry) (clicks : List Click) :
    (∀ p : Point, some p ∈ prunePoints now lifespan points ↔
        some p ∈ points ∧ now - p.t ≤ lifespan)
    ∧ (∀ c : Click, c ∈ pruneClicks now lifespan clicks ↔
        c ∈ clicks ∧ now - c.t ≤ lifespan)
    ∧ (prunePoints now lifespan points).Sublist points
    ∧ (pruneClicks now lifespan clicks).Sublist clicks
    ∧ prunePoints 2 1 [some ⟨0, 0, 1/2⟩, some ⟨0, 0, 3/2⟩]
        = [some ⟨0, 0, 3/2⟩] := by
  refine ⟨?_, ?_, List.filter_sublist _, List.filter_sublist _, ?_⟩
  · intro p
    simp [prunePoints, List.mem_filter]
  · intro c
    simp [pruneClicks, List.mem_filter]
  · norm_num [prunePoints]

/-- C8: the bounds recenter fires exactly when the offset leaves the canvas
half-extents, in which case it resets the offset to `(0,0)` and appends a
break sentinel; otherwise it leaves the state unchanged. -/
theorem bounds_recenter_iff (W H : ℚ) (st : HandlerState) :
    (|st.currentPos.1| > W / 2 ∨ |st.currentPos.2| > H / 2 →
      boundsRecenter W H st =
        { st with currentPos := (0, 0), points := st.points ++ [none] })
    ∧ (¬(|st.currentPos.1| > W / 2 ∨ |st.currentPos.2| > H / 2) →
      boundsRecenter W H st = st) := by
  constructor <;> intro h
  · rw [boundsRecenter, if_pos h]
  · rw [boundsRecenter, if_neg h]

/-- C8 witness: the spec's scenario — offset `(410, 0)` on an 800×600 canvas
triggers the recenter (break appended, offset reset), while `(399, 0)` leaves
the state untouched. -/
theorem bounds_recenter_iff_witness :
    boundsRecenter 800 600 ⟨[], [], (410, 0), 0⟩ = ⟨[none], [], (0, 0), 0⟩
    ∧ boundsRecenter 800 600 ⟨[], [], (399, 0), 0⟩ = ⟨[], [], (399, 0), 0⟩ := by
  constructor
  · exact (bounds_recenter_iff 800 600 ⟨[], [], (410, 0), 0⟩).1 (by norm_num)
  · exact (bounds_recenter_iff 800 600 ⟨[], [], (399, 0), 0⟩).2 (by norm_num)

/-- C10: `on_click` records the click at the accumulator's current offset and
its `x`, `y` arguments have no effect — two calls differing only in `x` and
`y` produce identical states. -/
theorem on_click_ignores_args (st : HandlerState) (x1 y1 x2 y2 : ℤ)
    (button : String) (pressed : Bool) (now : ℚ) :
    on_click st x1 y1 button pressed now = on_click st x2 y2 button pressed now
    ∧ (on_click st x1 y1 button pressed now).clicks =
        st.clicks ++
          [⟨st.currentPos.1, st.currentPos.2, buttonName button, now, pressed⟩]
    ∧ (on_click st x1 y1 button pressed now).points = st.points
    ∧ (on_click st x1 y1 button pressed now).currentPos = st.currentPos :=
  ⟨rfl, rfl, rfl, rfl⟩

/-- C3 counterexample: after a prune at age 10 with lifespan 1, a break whose
two neighboring points have both expired still survives (`[none]` remains),
and an out-of-bounds recenter does not clear the buffer — it appends a break
after the stale point. -/
theorem break_pruning_counterexample :
    prunePoints 10 1 [some ⟨0, 0, 0⟩, none, some ⟨1, 1, 0⟩] = [none]
    ∧ (boundsRecenter 800 600 ⟨[some ⟨410, 0, 0⟩], [], (410, 0), 0⟩).points
        = [some ⟨410, 0, 0⟩, none] := by
  constructor
  · norm_num [prunePoints]
  · norm_num [boundsRecenter]

/-- C3 amended: the per-frame prune retains every break sentinel
unconditionally (their count is preserved; only points are filtered by age),
and an out-of-bounds recenter never clears the buffer — it appends one break
sentinel to the existing entries. -/
theorem breaks_retained_and_recenter_appends (now lifespan W H : ℚ)
    (points : List TrailEntry) (st : HandlerState)
    (h : |st.currentPos.1| > W / 2 ∨ |st.currentPos.2| > H / 2) :
    (prunePoints now lifespan points).count none = points.count none
    ∧ (boundsRecenter W H st).points = st.points ++ [none] := by
  constructor
  · exact List.count_filter rfl
  · simp only [boundsRecenter, if_pos h]

/-- C3 amended witness: concrete buffer with two breaks and expired
neighbors keeps both breaks, and the recenter at offset `(410, 0)` appends a
break to the empty buffer. -/
theorem breaks_retained_witness :
    (prunePoints 10 1 [none, some ⟨0, 0, 0⟩, none]).count none =
      ([none, some ⟨0, 0, 0⟩, none] : List TrailEntry).count none
    ∧ (boundsRecenter 800 600 ⟨[], [], (410, 0), 0⟩).points = [] ++ [none] :=
  breaks_retained_and_recenter_appends 10 1 800 600 _ _ (Or.inl (by norm_num))

/-- C4 counterexample: starting from the initial state, one delta of `(5,5)`
with multiplier 1 at time 0 followed by the per-frame prune at time 10 with
lifespan 1 leaves the offset at `(5,5)` while the buffer holds no points, so
the offset differs from the value the invariant predicts (`(0,0)`). -/
theorem accumulator_invariant_counterexample :
    (framePrune 10 1 (on_delta_move 1 (initialState 0) 5 5 0)).currentPos ≠
      accumTarget (framePrune 10 1 (on_delta_move 1 (initialState 0) 5 5 0)).points := by
  norm_num [framePrune, on_delta_move, initialState, prunePoints, pruneClicks,
    accumTarget, accumTargetRev]

/-- C4 amended: delta application establishes the offset/buffer
correspondence (the offset equals the last appended point's position), and
both recenter checks preserve it (resetting the offset to `(0,0)` exactly
when they append a break); the correspondence is not maintained by the
per-frame prune, which leaves the offset untouched while possibly removing
the last point. -/
theorem accumulator_invariant_preserved
    (multiplier dx dy now W H timeout lifespan : ℚ) (enabled : Bool)
    (st : HandlerState) (hinv : st.currentPos = accumTarget st.points) :
    (on_delta_move multiplier st dx dy now).currentPos =
        accumTarget (on_delta_move multiplier st dx dy now).points
    ∧ (boundsRecenter W H st).currentPos =
        accumTarget (boundsRecenter W H st).points
    ∧ (autoRecenter enabled timeout now st).currentPos =
        accumTarget (autoRecenter enabled timeout now st).points := by
  refine ⟨?_, ?_, ?_⟩
  · rw [on_delta_move]
    simp only [accumTarget_append_point]
  · rw [boundsRecenter]
    by_cases h : |st.currentPos.1| > W / 2 ∨ |st.currentPos.2| > H / 2
    · rw [if_pos h]
      simp only [accumTarget_append_break]
    · rw [if_neg h]
      exact hinv
  · rw [autoRecenter]
    by_cases h : enabled = true ∧ now - st.lastMovementTime > timeout
    · rw [if_pos h]
      simp only [accumTarget_append_break]
    · rw [if_neg h]
      exact hinv

/-- C4 amended witness: from the initial state, the delta `(5,0)` with
multiplier 2 moves the offset to the newly appended point's position. -/
theorem accumulator_invariant_preserved_witness :
    (on_delta_move 2 (initialState 0) 5 0 1).currentPos =
      accumTarget (on_delta_move 2 (initialState 0) 5 0 1).points :=
  (accumulator_invariant_preserved 2 5 0 1 800 600 10 1 false
    (initialState 0) rfl).1

/-- C5 counterexample: a zero-length segment (both endpoints `(3,4)`) still
emits one draw primitive under both "smooth_fade" and "jagged_fade" — it is
not skipped. -/
theorem degenerate_segment_counterexample :
    (draw_line_segment "smooth_fade" "white" 4 (3, 4) (3, 4) 0 1 0).length = 1
    ∧ (draw_line_segment "jagged_fade" "white" 4 (3, 4) (3, 4) 0 1 0).length = 1 :=
  ⟨rfl, rfl⟩

/-- C5 amended: on coincident endpoints the renderer still emits exactly one
polyline — eleven copies of the point under "smooth_fade", the two equal
endpoints under "jagged_fade" — and no error can arise: the code performs no
perpendicular computation, so no division by the segment length exists. -/
theorem degenerate_segment_still_draws (lineColor : String)
    (w now lifespan t : ℚ) (p : ℚ × ℚ) :
    draw_line_segment "smooth_fade" lineColor w p p now lifespan t =
      [Primitive.polyline (List.replicate 11 p) lineColor
        (w * max 0 (1 - (now - t) / lifespan)) true]
    ∧ draw_line_segment "jagged_fade" lineColor w p p now lifespan t =
      [Primitive.polyline [p, p] lineColor
        (w * max 0 (1 - (now - t) / lifespan)) false] := by
  rw [draw_line_segment_smooth_fade, draw_line_segment_jagged_fade,
    interpPoints_same]
  exact ⟨rfl, rfl⟩

/-- C1: under "smooth_fade", with a nonnegative configured width and a
positive lifespan, the rendered stroke width of the emitted polyline equals
`line_width * clamp(1 - age/lifespan, 0, 1)` for every point age `now - t ≥ 0`;
it equals `line_width` at age 0, is non-increasing in age, and is exactly 0
from age `lifespan` on. -/
theorem smooth_fade_width_law (lineColor : String) (w lifespan now : ℚ)
    (p1 p2 : ℚ × ℚ) (hw : 0 ≤ w) (hl : 0 < lifespan) :
    (∀ t : ℚ, t ≤ now →
      primWidth ((draw_line_segment "smooth_fade" lineColor w p1 p2 now lifespan t).headI)
        = w * max 0 (min 1 (1 - (now - t) / lifespan)))
    ∧ primWidth ((draw_line_segment "smooth_fade" lineColor w p1 p2 now lifespan now).headI)
        = w
    ∧ (∀ t t2 : ℚ, t2 ≤ t →
      primWidth ((draw_line_segment "smooth_fade" lineColor w p1 p2 now lifespan t2).headI)
        ≤ primWidth ((draw_line_segment "smooth_fade" lineColor w p1 p2 now lifespan t).headI))
    ∧ (∀ t : ℚ, lifespan ≤ now - t →
      primWidth ((draw_line_segment "smooth_fade" lineColor w p1 p2 now lifespan t).headI)
        = 0) := by
  have hev : ∀ t : ℚ,
      primWidth ((draw_line_segment "smooth_fade" lineColor w p1 p2 now lifespan t).headI)
        = w * max 0 (1 - (now - t) / lifespan) := by
    intro t
    rw [draw_line_segment_smooth_fade]
    rfl
  refine ⟨?_, ?_, ?_, ?_⟩
  · intro t ht
    rw [hev, min_eq_right (sub_le_self 1 (div_nonneg (by linarith) hl.le))]
  · rw [hev]
    norm_num
  · intro t t2 ht
    rw [hev, hev]
    have hdiv : (now - t) / lifespan ≤ (now - t2) / lifespan :=
      (div_le_div_right hl).mpr (by linarith)
    exact mul_le_mul_of_nonneg_left (max_le_max le_rfl (by linarith [hdiv])) hw
  · intro t ht
    rw [hev]
    have h0 : 1 - (now - t) / lifespan ≤ 0 := by
      have : (1 : ℚ) ≤ (now - t) / lifespan := (one_le_div hl).mpr ht
      linarith
    rw [max_eq_left h0, mul_zero]

/-- C1 witness: the spec's scenario — width 4 at age 0 under "smooth_fade"
with lifespan 1 renders at exactly width 4. -/
theorem smooth_fade_width_law_witness :
    primWidth ((draw_line_segment "smooth_fade" "white" 4 (0, 0) (10, 0) 0 1 0).headI) = 4 :=
  (smooth_fade_width_law "white" 4 1 0 (0, 0) (10, 0) (by norm_num) (by norm_num)).2.1

/-- A buffer whose entries are all break sentinels draws nothing. -/
theorem drawTrail_eq_nil_of_all_breaks (ls lc : String) (w cx cy now lifespan : ℚ) :
    ∀ entries : List TrailEntry, (∀ e ∈ entries, e = none) →
      drawTrail ls lc w cx cy now lifespan entries = []
  | [], _ => rfl
  | [_], _ => rfl
  | e1 :: e2 :: rest, h => by
    have h1 : e1 = none := h e1 (List.mem_cons_self _ _)
    have h2 : e2 = none := h e2 (List.mem_cons_of_mem _ (List.mem_cons_self _ _))
    have ih := drawTrail_eq_nil_of_all_breaks ls lc w cx cy now lifespan (e2 :: rest)
      (fun e he => h e (List.mem_cons_of_mem _ he))
    subst h1
    subst h2
    show ([] : List Primitive) ++ drawTrail ls lc w cx cy now lifespan (none :: rest) = []
    rw [List.nil_append]
    exact ih

/-- Every primitive emitted by the trail loop comes from a consecutive pair
of point entries (never across a break sentinel). -/
theorem drawTrail_mem_segment (ls lc : String) (w cx cy now lifespan : ℚ) :
    ∀ (entries : List TrailEntry) (pr : Primitive),
      pr ∈ drawTrail ls lc w cx cy now lifespan entries →
      ∃ i q1 q2, entries.get? i = some (some q1)
        ∧ entries.get? (i + 1) = some (some q2)
        ∧ pr ∈ draw_line_segment ls lc w (cx + q1.x, cy + q1.y)
            (cx + q2.x, cy + q2.y) now lifespan q1.t
  | [], pr, h => absurd h (List.not_mem_nil _)
  | [_], pr, h => absurd h (List.not_mem_nil _)
  | e1 :: e2 :: rest, pr, h => by
    simp only [drawTrail] at h
    rcases List.mem_append.mp h with hl | hr
    · match e1, e2, hl with
      | some q1, some q2, hl =>
        exact ⟨0, q1, q2, rfl, rfl, hl⟩
      | none, _, hl => exact absurd hl (List.not_mem_nil _)
      | some _, none, hl => exact absurd hl (List.not_mem_nil _)
    · obtain ⟨i, q1, q2, hg1, hg2, hmem⟩ :=
        drawTrail_mem_segment ls lc w cx cy now lifespan (e2 :: rest) pr hr
      refine ⟨i + 1, q1, q2, ?_, ?_, hmem⟩
      · rw [List.get?_cons_succ]
        exact hg1
      · rw [List.get?_cons_succ]
        exact hg2

/-- C7: a buffer containing only break sentinels yields no draw primitive,
and every primitive the trail loop emits connects two consecutive point
entries of the buffer — no primitive spans a break. -/
theorem trail_draws_only_between_points (lineStyle lineColor : String)
    (lineWidth cx cy now lifespan : ℚ) (entries : List TrailEntry) :
    ((∀ e ∈ entries, e = none) →
      drawTrail lineStyle lineColor lineWidth cx cy now lifespan entries = [])
    ∧ ∀ pr ∈ drawTrail lineStyle lineColor lineWidth cx cy now lifespan entries,
      ∃ i q1 q2, entries.get? i = some (some q1)
        ∧ entries.get? (i + 1) = some (some q2)
        ∧ pr ∈ draw_line_segment lineStyle lineColor lineWidth
            (cx + q1.x, cy + q1.y) (cx + q2.x, cy + q2.y) now lifespan q1.t :=
  ⟨drawTrail_eq_nil_of_all_breaks _ _ _ _ _ _ _ entries,
   fun pr h => drawTrail_mem_segment _ _ _ _ _ _ _ entries pr h⟩

/-- C7 witness: a buffer of three break sentinels draws nothing. -/
theorem trail_draws_only_between_points_witness :
    drawTrail "smooth_fade" "white" 4 0 0 0 1 [none, none, none] = [] :=
  (trail_draws_only_between_points "smooth_fade" "white" 4 0 0 0 1
    [none, none, none]).1 (by intro e he; simpa using he)

/-- C2 counterexample: the spec's two-point scenario (points `(0,0)` and
`(10,0)` at time 0, "smooth_fade", width 4, rendered at time 0) emits exactly
one primitive and it is not a filled polygon — the code emits a smoothed
polyline, not the perpendicular-offset ribbon the claim describes. -/
theorem smooth_fade_polygon_counterexample :
    (drawTrail "smooth_fade" "white" 4 0 0 0 1
      [some ⟨0, 0, 0⟩, some ⟨10, 0, 0⟩]).map isFilledPolygonB = [false] := rfl

/-- C2 amended: the two-point scenario emits a single smoothed polyline
through the 11 interpolated points from `(0,0)` to `(10,0)` with stroke width
4 (the full line width at age 0); no polygon geometry is produced. -/
theorem smooth_fade_two_point_polyline :
    drawTrail "smooth_fade" "white" 4 0 0 0 1 [some ⟨0, 0, 0⟩, some ⟨10, 0, 0⟩] =
      [Primitive.polyline
        [(0, 0), (1, 0), (2, 0), (3, 0), (4, 0), (5, 0),
         (6, 0), (7, 0), (8, 0), (9, 0), (10, 0)]
        "white" 4 true] := by
  have h1 : drawTrail "smooth_fade" "white" 4 0 0 0 1
      [some ⟨0, 0, 0⟩, some ⟨10, 0, 0⟩]
      = draw_line_segment "smooth_fade" "white" 4 ((0 : ℚ) + 0, (0 : ℚ) + 0)
          ((0 : ℚ) + 10, (0 : ℚ) + 0) 0 1 0 := by
    simp [drawTrail]
  rw [h1, draw_line_segment_smooth_fade]
  norm_num [interpPoints, List.range_succ, max_eq_right]

/-- The spec's 2×2 selection table for click shapes (button × phase to one
configured color/radius pair), stated from the ClickRenderer contract for
comparison with the code's dispatch. -/
def specClickStyle (ls lr rs rr : ClickStyle) (c : Click) : ClickStyle :=
  if c.button = "left" then (if c.pressed then ls else lr)
  else (if c.pressed then rs else rr)

/-- The spec's 2×2 selection table for click glyphs, stated from the
ClickRenderer contract for comparison with the code's dispatch. -/
def specClickGlyph (imgs : ClickImages) (c : Click) : Option String :=
  if c.button = "left" then (if c.pressed then imgs.leftPress else imgs.leftRelease)
  else (if c.pressed then imgs.rightPress else imgs.rightRelease)

/-- C9: the click renderer follows the 2×2 table — it draws the category's
glyph when loaded and otherwise the category's configured color and radius as
an oval; an unset image path loads as unavailable, and in particular with
`left_click_image_path` unset a left press renders the oval with the left
click color and radius. -/
theorem click_table_and_fallback (cx cy : ℚ) (imgs : ClickImages)
    (ls lr rs rr : ClickStyle) (c : Click) (pathExists : String → Bool)
    (loadImage : String → Option String) (lrp rp rrp : String) :
    (drawOneClick cx cy imgs ls lr rs rr c =
      match specClickGlyph imgs c with
      | some g => Primitive.image (cx + c.relx) (cy + c.rely) g
      | none => clickOval cx cy c (specClickStyle ls lr rs rr c))
    ∧ (update_images true pathExists loadImage "" lrp rp rrp).leftPress = none
    ∧ (c.button = "left" → c.pressed = true →
      drawOneClick cx cy (update_images true pathExists loadImage "" lrp rp rrp)
          ls lr rs rr c = clickOval cx cy c ls) := by
  refine ⟨?_, ?_, ?_⟩
  · by_cases hb : c.button = "left" <;> cases hp : c.pressed <;>
      simp [drawOneClick, specClickGlyph, specClickStyle, hb, hp]
  · simp [update_images, load_and_resize_image]
  · intro hb hp
    simp [drawOneClick, hb, hp, update_images, load_and_resize_image]

/-- C9 witness: with the left-press image path unset (and a filesystem on
which nothing resolves), a left press renders the fallback oval with the
configured left click color and radius. -/
theorem click_table_and_fallback_witness :
    drawOneClick 0 0 (update_images true (fun _ => false) (fun _ => none) "" "a" "b" "c")
        ⟨"#ff0000", 15⟩ ⟨"#ff8080", 10⟩ ⟨"#0000ff", 15⟩ ⟨"light sky blue", 10⟩
        ⟨1, 2, "left", 0, true⟩
      = clickOval 0 0 ⟨1, 2, "left", 0, true⟩ ⟨"#ff0000", 15⟩ :=
  (click_table_and_fallback 0 0 ⟨none, none, none, none⟩ ⟨"#ff0000", 15⟩
      ⟨"#ff8080", 10⟩ ⟨"#0000ff", 15⟩ ⟨"light sky blue", 10⟩
      ⟨1, 2, "left", 0, true⟩ (fun _ => false) (fun _ => none) "a" "b" "c").2.2
    rfl rfl

/-- C6 witness: the spec's scenario instance at time 2 — with lifespan 1 the
point of age 3/2 is removed and the point of age 1/2 is kept. -/
theorem prune_removes_exactly_expired_witness :
    prunePoints 2 1 [some ⟨0, 0, 1/2⟩, some ⟨0, 0, 3/2⟩] = [some ⟨0, 0, 3/2⟩] :=
  (prune_removes_exactly_expired 2 1 [] []).2.2.2.2

/-- C5 amended witness: the degenerate segment at `(3,4)` evaluated
concretely under both fading styles. -/
theorem degenerate_segment_still_draws_witness :
    draw_line_segment "smooth_fade" "white" 4 (3, 4) (3, 4) 0 1 0 =
      [Primitive.polyline (List.replicate 11 ((3 : ℚ), (4 : ℚ))) "white"
        (4 * max 0 (1 - ((0 : ℚ) - 0) / 1)) true] :=
  (degenerate_segment_still_draws "white" 4 0 1 0 (3, 4)).1

/-- C10 witness: two clicks differing only in their `x`, `y` arguments
produce the same state. -/
theorem on_click_ignores_args_witness :
    on_click (initialState 0) 3 4 "Button.left" true 1
      = on_click (initialState 0) 7 8 "Button.left" true 1 :=
  (on_click_ignores_args (initialState 0) 3 4 7 8 "Button.left" true 1).1
